import Mathlib

/-!
# Verification of the zakup_bot Quote Normalization & Comparison Engine

A shallow embedding, in Lean 4, of the algorithmic core of the `zakup_bot`
repository (`src/unit_normalizer.py`, `src/category_intelligence.py`,
`src/comparator.py`, `src/ai_engine.py`), together with theorems settling the
specification claims about it.

Modelling conventions:

* Python `float` values are modelled as exact rationals (`Rat`).  Python's
  `round(x, n)` is modelled as exact round-half-to-even on rationals
  (`pyRound`).
* Python strings are Lean `String`s.  The Russian text in the sources of
  `unit_normalizer.py` is stored double-encoded (UTF-8 read as mac-roman and
  re-encoded); the embedded string literals below reproduce, character for
  character, exactly the strings the Python interpreter sees, via `\u`
  escapes.
* `str.lower` is modelled by `pyLowerChar`, which implements Unicode
  lowercasing for the character ranges that occur in this program's data
  (ASCII, Latin-1 Supplement, Greek capital Omega, Cyrillic) and is the
  identity elsewhere.  No theorem below depends on its value outside those
  ranges.
* External collaborators (the LLM endpoints and the `rapidfuzz` scorer) are
  modelled as parameters: a normalization call receives the (already parsed)
  response as an `Option` value, `None` standing for any transport error,
  missing JSON or JSON parse failure, and the fuzzy matcher is an abstract
  function argument.
* Python functions that can raise are modelled in `Except`; total functions
  return plain values.
-/

/- Batteries marks the `Rat` arithmetic irreducible; concrete evaluation in
proofs below (`decide`, `rfl`) needs it unfolded. -/
attribute [local semireducible] Rat.mul Rat.add Rat.sub Rat.inv Rat.ofScientific

/-! ## Python string and rounding primitives -/

/-- `str.lower` on one character, for the ranges occurring in this program:
ASCII letters, Latin-1 Supplement capitals (`À`–`Þ` except `×`), the Greek
capital omega, and Cyrillic `А`–`Я`/`Ё`.  Identity on everything else. -/
def pyLowerChar (c : Char) : Char :=
  if 'A' ≤ c ∧ c ≤ 'Z' then Char.ofNat (c.toNat + 32)
  else if 0xC0 ≤ c.toNat ∧ c.toNat ≤ 0xDE ∧ c.toNat ≠ 0xD7 then Char.ofNat (c.toNat + 32)
  else if c.toNat = 0x3A9 then Char.ofNat 0x3C9
  else if 0x410 ≤ c.toNat ∧ c.toNat ≤ 0x42F then Char.ofNat (c.toNat + 32)
  else if c.toNat = 0x401 then Char.ofNat 0x451
  else c

/-- ASCII whitespace, as recognised by `str.strip` and `\s` (the sources only
ever strip ASCII whitespace). -/
def isPySpace (c : Char) : Bool :=
  c == ' ' || c == '\t' || c == '\n' || c == '\r' || c == Char.ofNat 11 || c == Char.ofNat 12

/-- Left half of `str.strip`. -/
def trimLeft (l : List Char) : List Char := l.dropWhile isPySpace

/-- Right half of `str.strip`. -/
def trimRight (l : List Char) : List Char := (l.reverse.dropWhile isPySpace).reverse

/-- `str.strip` on a character list. -/
def pyStripL (l : List Char) : List Char := trimRight (trimLeft l)

/-- `str.lower` on a string. -/
def pyLower (s : String) : String := ⟨s.data.map pyLowerChar⟩

/-- `str.strip` on a string. -/
def pyStrip (s : String) : String := ⟨pyStripL s.data⟩

/-- `str.rstrip('.')`. -/
def rstripDot (s : String) : String := ⟨(s.data.reverse.dropWhile (· == '.')).reverse⟩

/-- Round-half-to-even to an integer, which is what Python's `round` computes
on an exact value. -/
def roundHalfEven (x : Rat) : Int :=
  let n := x.floor
  let r := x - n
  if r < 1 / 2 then n
  else if 1 / 2 < r then n + 1
  else if n % 2 = 0 then n else n + 1

/-- Python's `round(x, d)`, idealised over exact rationals. -/
def pyRound (d : Nat) (x : Rat) : Rat := (roundHalfEven (x * 10 ^ d) : Rat) / 10 ^ d

/-- Python's substring test `p in s`, on character lists. -/
def listInfix (p : List Char) : List Char → Bool
  | [] => p.isEmpty
  | c :: t => p.isPrefixOf (c :: t) || listInfix p t

/-- Python's substring test `needle in hay` on strings. -/
def strContains (needle hay : String) : Bool := listInfix needle.data hay.data

/-! ## `src/unit_normalizer.py` — the Unit Normalizer -/

namespace UnitNormalizer

/-- `UnitNormalizer.UNIT_CONVERSIONS`: alias ↦ (canonical unit, factor).
The keys and values are exactly the (double-encoded) string literals of the
source file; the float factors are their exact decimal values. -/
def UNIT_CONVERSIONS : List (String × String × Rat) := [
  ("–≥", "–∫–≥", ((1 : Rat) / 1000)),
  ("–≥—Ä–∞–º–º", "–∫–≥", ((1 : Rat) / 1000)),
  ("–∫–≥", "–∫–≥", (1 : Rat)),
  ("–∫–∏–ª–æ–≥—Ä–∞–º–º", "–∫–≥", (1 : Rat)),
  ("—Ç", "–∫–≥", (1000 : Rat)),
  ("—Ç–æ–Ω–Ω–∞", "–∫–≥", (1000 : Rat)),
  ("–º–≥", "–∫–≥", ((1 : Rat) / 1000000)),
  ("–º–º", "–º", ((1 : Rat) / 1000)),
  ("–º–∏–ª–ª–∏–º–µ—Ç—Ä", "–º", ((1 : Rat) / 1000)),
  ("—Å–º", "–º", ((1 : Rat) / 100)),
  ("—Å–∞–Ω—Ç–∏–º–µ—Ç—Ä", "–º", ((1 : Rat) / 100)),
  ("–º", "–º", (1 : Rat)),
  ("–º–µ—Ç—Ä", "–º", (1 : Rat)),
  ("–∫–º", "–º", (1000 : Rat)),
  ("–∫–∏–ª–æ–º–µ—Ç—Ä", "–º", (1000 : Rat)),
  ("–º–º2", "–º2", ((1 : Rat) / 1000000)),
  ("—Å–º2", "–º2", ((1 : Rat) / 10000)),
  ("–º2", "–º2", (1 : Rat)),
  ("–º¬≤", "–º2", (1 : Rat)),
  ("–∫–≤.–º", "–º2", (1 : Rat)),
  ("–∫–≤.–º.", "–º2", (1 : Rat)),
  ("–∫–≤–∞–¥—Ä–∞—Ç–Ω—ã–π –º–µ—Ç—Ä", "–º2", (1 : Rat)),
  ("–º–ª", "–º3", ((1 : Rat) / 1000000)),
  ("–ª", "–º3", ((1 : Rat) / 1000)),
  ("–ª–∏—Ç—Ä", "–º3", ((1 : Rat) / 1000)),
  ("–º3", "–º3", (1 : Rat)),
  ("–º¬≥", "–º3", (1 : Rat)),
  ("–∫—É–±.–º", "–º3", (1 : Rat)),
  ("–∫—É–±–∏—á–µ—Å–∫–∏–π –º–µ—Ç—Ä", "–º3", (1 : Rat)),
  ("—à—Ç", "—à—Ç", (1 : Rat)),
  ("—à—Ç—É–∫–∞", "—à—Ç", (1 : Rat)),
  ("—à—Ç—É–∫", "—à—Ç", (1 : Rat)),
  ("—à—Ç.", "—à—Ç", (1 : Rat)),
  ("–µ–¥", "—à—Ç", (1 : Rat)),
  ("–µ–¥–∏–Ω–∏—Ü–∞", "—à—Ç", (1 : Rat)),
  ("–ø–∞—Ä–∞", "—à—Ç", (2 : Rat)),
  ("–¥—é–∂–∏–Ω–∞", "—à—Ç", (12 : Rat)),
  ("–¥–µ–Ω—å", "–¥–µ–Ω—å", (1 : Rat)),
  ("–¥", "–¥–µ–Ω—å", (1 : Rat)),
  ("–¥–Ω", "–¥–µ–Ω—å", (1 : Rat)),
  ("–¥–Ω–µ–π", "–¥–µ–Ω—å", (1 : Rat)),
  ("–Ω–µ–¥–µ–ª—è", "–¥–µ–Ω—å", (7 : Rat)),
  ("–Ω–µ–¥", "–¥–µ–Ω—å", (7 : Rat)),
  ("–º–µ—Å—è—Ü", "–¥–µ–Ω—å", (30 : Rat)),
  ("–º–µ—Å", "–¥–µ–Ω—å", (30 : Rat)),
  ("—É–ø–∞–∫–æ–≤–∫–∞", "—É–ø–∞–∫–æ–≤–∫–∞", (1 : Rat)),
  ("—É–ø–∞–∫", "—É–ø–∞–∫–æ–≤–∫–∞", (1 : Rat)),
  ("–∫–æ—Ä–æ–±–∫–∞", "–∫–æ—Ä–æ–±–∫–∞", (1 : Rat)),
  ("–∫–æ—Ä–æ–±", "–∫–æ—Ä–æ–±–∫–∞", (1 : Rat)),
  ("–ø–∞–ª–ª–µ—Ç–∞", "–ø–∞–ª–ª–µ—Ç–∞", (1 : Rat)),
  ("–ø–æ–¥–¥–æ–Ω", "–ø–∞–ª–ª–µ—Ç–∞", (1 : Rat)),
  ("—Ä—É–ª–æ–Ω", "—Ä—É–ª–æ–Ω", (1 : Rat)),
  ("–º–µ—à–æ–∫", "–º–µ—à–æ–∫", (1 : Rat)),
  ("–ø–∞–∫–µ—Ç", "–ø–∞–∫–µ—Ç", (1 : Rat))
]

/-- The `complex_units` marker list of `UnitNormalizer.normalize_item`
(packaging words, double-encoded exactly as in the source). -/
def complex_units : List String := [
  "—É–ø–∞–∫–æ–≤–∫–∞",
  "–∫–æ—Ä–æ–±–∫–∞",
  "—Ä—É–ª–æ–Ω",
  "–º–µ—à–æ–∫",
  "–ø–∞–ª–ª–µ—Ç–∞",
  "–ø–æ–¥–¥–æ–Ω",
  "–ø–∞–∫–µ—Ç"
]

/-- `UnitNormalizer._normalize_unit_string`: lowercase, strip whitespace,
strip trailing periods. -/
def normalizeUnitString (u : String) : String :=
  if u = "" then "" else rstripDot (pyStrip (pyLower u))

/-- `UnitNormalizer._simple_convert`: dictionary-based conversion. -/
def simpleConvert (quantity : Rat) (unit : String) : Option (Rat × String) :=
  match UNIT_CONVERSIONS.lookup (normalizeUnitString unit) with
  | some (target, factor) => some (quantity * factor, target)
  | none => none

/-- The item fields read by `normalize_item` (`item.get` defaults already
applied: a missing `quantity`/`price_per_unit` is 0, a missing `unit`/`name`
is the empty string). -/
structure Item where
  name : String
  quantity : Rat
  unit : String
  price_per_unit : Rat
deriving DecidableEq, Repr

/-- An item after `normalize_item` has added the three `normalized_*` keys. -/
structure NormItem where
  item : Item
  normalized_quantity : Rat
  normalized_unit : String
  normalized_price : Rat
deriving DecidableEq, Repr

/-- The JSON object extracted by `_llm_convert` from the LLM response; every
field is optional because the parsed dict is not validated.  The model
restricts the numeric fields to numbers: a response carrying, say, a string
where a number is expected is outside the model. -/
structure LlmResponse where
  normalized_quantity : Option Rat
  normalized_unit : Option String
  normalized_price : Option Rat
  confidence : Option Rat
deriving DecidableEq, Repr

/-- `UnitNormalizer._llm_convert`, with the network, the regex `\{.*\}` match
and `json.loads` abstracted into the `resp` argument: `none` stands for a
transport error, a response with no JSON or an unparseable one (the function
catches all of these and returns `None`).  A parsed response is kept only if
its confidence (default 0) exceeds 0.3. -/
def llmConvert (resp : Option LlmResponse) : Option LlmResponse :=
  match resp with
  | none => none
  | some r => if 3 / 10 < r.confidence.getD 0 then some r else none

/-- The "keep original values" outcome of `normalize_item`. -/
def passthrough (it : Item) : NormItem :=
  ⟨it, it.quantity, it.unit, it.price_per_unit⟩

/-- `UnitNormalizer.normalize_item`.  `resp` is the abstract LLM response
(used only on the complex-unit path).  The result is an `Except` because the
accesses `llm_result["normalized_quantity"]` / `["normalized_unit"]` /
`["normalized_price"]` raise `KeyError` when an accepted response lacks one of
those keys. -/
def normalizeItem (resp : Option LlmResponse) (it : Item) : Except String NormItem :=
  if it.unit = "" ∨ it.quantity = 0 then .ok (passthrough it)
  else
    match simpleConvert it.quantity it.unit with
    | some (nq, nu) =>
      let np := if 0 < nq then it.price_per_unit * it.quantity / nq else it.price_per_unit
      .ok ⟨it, pyRound 4 nq, nu, pyRound 2 np⟩
    | none =>
      if complex_units.any (fun cu => strContains cu (normalizeUnitString it.unit)) then
        match llmConvert resp with
        | some r =>
          match r.normalized_quantity, r.normalized_unit, r.normalized_price with
          | some nq, some nu, some np => .ok ⟨it, pyRound 4 nq, nu, pyRound 2 np⟩
          | _, _, _ => .error "KeyError"
        | none => .ok (passthrough it)
      else .ok (passthrough it)

end UnitNormalizer

/-! ## `src/category_intelligence.py` — Category Classifier and Completeness Scorer -/

namespace CategoryIntelligence

/-- `CategoryIntelligence.CATEGORY_MAPPINGS` (this file is stored in plain
UTF-8, so the category keys are ordinary Cyrillic). -/
def CATEGORY_MAPPINGS : List (String × List String) := [
  ("строительные материалы",
    ["size", "dimensions", "material", "grade", "class",
     "manufacturer", "color", "thickness", "density"]),
  ("электроника",
    ["model", "brand", "warranty", "voltage", "power",
     "frequency", "capacity", "interface", "compatibility"]),
  ("мебель",
    ["dimensions", "material", "color", "weight_capacity",
     "assembly_required", "style", "finish"]),
  ("инструменты",
    ["brand", "model", "power", "voltage", "weight",
     "warranty", "accessories_included", "max_capacity"]),
  ("офисные товары",
    ["brand", "model", "size", "color", "material",
     "capacity", "format"]),
  ("расходные материалы",
    ["brand", "model", "compatibility", "yield",
     "color", "type", "package_quantity"]),
  ("сантехника",
    ["material", "size", "connection_type", "pressure_rating",
     "manufacturer", "finish", "mounting_type"]),
  ("электрооборудование",
    ["voltage", "current", "power", "protection_class",
     "mounting_type", "brand", "certification"])
]

/-- `CategoryIntelligence.suggest_important_fields`:
`CATEGORY_MAPPINGS.get(category, [])`. -/
def suggestImportantFields (category : String) : List String :=
  (CATEGORY_MAPPINGS.lookup category).getD []

/-- The dictionary returned by `validate_category_specs`. -/
structure SpecValidation where
  missing_specs : List String
  completeness_score : Rat
  has_specs : List String
deriving DecidableEq, Repr

/-- `CategoryIntelligence.validate_category_specs`.  The item is represented
by the key set of its `specs` dict (`specKeys`).  Python materialises
`has_specs` and `missing_specs` from `set` operations, whose iteration order
is arbitrary; the model fixes the order to the order of the (deduplicated)
important-field list — the claims about these fields are claims about sets. -/
def validateCategorySpecs (specKeys : List String) (category : String) : SpecValidation :=
  let important_fields := suggestImportantFields category
  if important_fields.isEmpty then
    ⟨[], 1, []⟩
  else
    let importantSet := important_fields.dedup
    let has_specs := importantSet.filter (fun f => specKeys.contains f)
    let missing_specs := importantSet.filter (fun f => !(specKeys.contains f))
    ⟨missing_specs,
     pyRound 2 ((has_specs.length : Rat) / (important_fields.length : Rat)),
     has_specs⟩

end CategoryIntelligence

/-! ## `src/comparator.py` — Cross-Supplier Grouper and Comparator -/

namespace QuoteComparator

/-- The item fields the comparator reads (after normalization and
completeness scoring; `.get` defaults applied for the total fields, and
`normalized_price` kept as an `Option` because the code tests its presence
and truthiness). -/
structure QItem where
  name : String
  normalized_price : Option Rat
  normalized_unit : String
  normalized_quantity : Rat
  completeness_score : Rat
deriving DecidableEq, Repr

/-- An item with the grouping context keys `_supplier`, `_source`,
`_original_name` added by `_group_similar_items`. -/
structure CItem where
  item : QItem
  supplier : String
  source : String
  original_name : String
deriving DecidableEq, Repr

structure Supplier where
  name : String
  items : List QItem
deriving DecidableEq, Repr

structure Quote where
  source_file : String
  suppliers : List Supplier
deriving DecidableEq, Repr

/-- `QuoteComparator._normalize_item_name`: lowercase, strip, collapse every
whitespace run to a single space (`re.sub(r'\s+', ' ', ...)`). -/
def squeezeSpaces : List Char → List Char
  | [] => []
  | [c] => [c]
  | a :: b :: t =>
    if a = ' ' ∧ b = ' ' then squeezeSpaces (b :: t) else a :: squeezeSpaces (b :: t)

/-- Replace each whitespace run by one space (the action of
`re.sub(r'\s+', ' ', ·)`). -/
def collapseWs (l : List Char) : List Char :=
  squeezeSpaces (l.map (fun c => if isPySpace c then ' ' else c))

def normalizeItemName (name : String) : String :=
  if name = "" then "" else ⟨collapseWs (pyStripL (name.data.map pyLowerChar))⟩

/-- The abstract fuzzy matcher standing for `_find_similar_group` (which
wraps `rapidfuzz.process.extractOne` with `token_sort_ratio`, an external
library): given the threshold, a normalized name and the existing group keys,
it returns the matched key or `none`. -/
def Matcher : Type := Rat → String → List String → Option String

/-- `grouped[target].append(item)` on the insertion-ordered dict, with the
`defaultdict(list)` behaviour of creating a missing key. -/
def addToGroup : List (String × List CItem) → String → CItem → List (String × List CItem)
  | [], k, it => [(k, [it])]
  | (k', its) :: rest, k, it =>
    if k' = k then (k', its ++ [it]) :: rest else (k', its) :: addToGroup rest k it

/-- One iteration of the item loop of `_group_similar_items`. -/
def groupStep (matcher : Matcher) (useFuzzy : Bool) (threshold : Rat)
    (supplierName sourceFile : String) (acc : List (String × List CItem)) (item : QItem) :
    List (String × List CItem) :=
  let normalizedName := normalizeItemName item.name
  if normalizedName = "" then acc
  else
    let ctx : CItem := ⟨item, supplierName, sourceFile, item.name⟩
    let target :=
      if useFuzzy ∧ acc ≠ [] then
        match matcher threshold normalizedName (acc.map (·.1)) with
        | some k => k
        | none => normalizedName
      else normalizedName
    addToGroup acc target ctx

/-- The grouping loop of `_group_similar_items` (before the size filter):
quotes, then suppliers, then items, in order. -/
def groupItems (matcher : Matcher) (useFuzzy : Bool) (threshold : Rat)
    (quotes : List Quote) : List (String × List CItem) :=
  quotes.foldl
    (fun acc q =>
      q.suppliers.foldl
        (fun acc s => s.items.foldl (groupStep matcher useFuzzy threshold s.name q.source_file) acc)
        acc)
    []

/-- `QuoteComparator._group_similar_items`: group, then keep only groups with
more than one member. -/
def groupSimilarItems (matcher : Matcher) (useFuzzy : Bool) (threshold : Rat)
    (quotes : List Quote) : List (String × List CItem) :=
  (groupItems matcher useFuzzy threshold quotes).filter (fun g => 1 < g.2.length)

/-- The recommendation dict produced per item group. -/
structure Recommendation where
  recommended_supplier : String
  recommended_price : Rat
  price_unit : String
  price_difference_percent : Rat
  reasoning : String
  alternatives : List String
deriving DecidableEq, Repr

def sentinelSupplier : String := "Данных недостаточно"

def sentinelReasoning : String := "Отсутствуют нормализованные цены для сравнения"

def reasonPre : String := "Лучшая цена среди "

def reasonSuf : String := " предложений"

/-- The "insufficient data" sentinel of `_simple_price_comparison`. -/
def sentinelRecommendation : Recommendation :=
  ⟨sentinelSupplier, 0, "", 0, sentinelReasoning, []⟩

/-- The validity filter of `_simple_price_comparison`:
`item.get("normalized_price") and item.get("normalized_price") > 0`
(a missing or zero price is falsy). -/
def validPrice (c : CItem) : Bool :=
  match c.item.normalized_price with
  | some p => decide (p ≠ 0 ∧ 0 < p)
  | none => false

/-- The sort key `x.get("normalized_price", float('inf'))` — on the filtered
list every price is present, so the `inf` default is unreachable and the
model uses 0.  The same expression with default 0 is also how
`best_price`/`worst_price` are read. -/
def priceKey (c : CItem) : Rat := c.item.normalized_price.getD 0

/-- Comparison relation of the price sort. -/
def priceLe (a b : CItem) : Prop := priceKey a ≤ priceKey b

instance : DecidableRel priceLe :=
  fun a b => inferInstanceAs (Decidable (priceKey a ≤ priceKey b))

instance : IsTotal CItem priceLe := ⟨fun a b => le_total (priceKey a) (priceKey b)⟩

instance : IsTrans CItem priceLe := ⟨fun _ _ _ hab hbc => le_trans hab hbc⟩

/-- `QuoteComparator._simple_price_comparison`.  Python's `sorted` is a
stable sort, modelled by `List.insertionSort` with the non-strict key order
(which is stable in the same sense).  The code returns the sentinel when the
valid list is empty, which happens exactly when its sort is empty. -/
def simplePriceComparison (group : List CItem) : Recommendation :=
  let valid := group.filter validPrice
  match valid.insertionSort priceLe with
  | [] => sentinelRecommendation
  | b :: t =>
    let worst := (b :: t).getLast (List.cons_ne_nil b t)
    let bestPrice := priceKey b
    let worstPrice := priceKey worst
    let priceDiff := if 0 < worstPrice then (worstPrice - bestPrice) / worstPrice * 100 else 0
    ⟨b.supplier, bestPrice, b.item.normalized_unit, pyRound 1 priceDiff,
     reasonPre ++ toString valid.length ++ reasonSuf,
     (t.take 2).map (·.supplier)⟩

/-- One row of the `all_options` list of a comparison entry. -/
structure OptionRow where
  supplier : String
  price : Option Rat
  unit : String
  quantity : Rat
  completeness : Rat
deriving DecidableEq, Repr

/-- One entry of `item_comparisons` (the dict built per group inside
`compare_project_quotes`; the two keys the code injects into the
recommendation dict are carried alongside it). -/
structure ComparisonEntry where
  item_name : String
  suppliers_count : Nat
  recommendation : Recommendation
  is_multi_supplier : Bool
  supplier_count : Nat
  savings_per_unit : Rat
  total_savings_estimate : Rat
  all_options : List OptionRow
deriving DecidableEq, Repr

/-- The per-group body of the loop in `compare_project_quotes`.  `llmResult`
is the abstract outcome of `_compare_item_group_with_llm` (`none` for a call
error or a response without a `{...}` match or unparseable JSON). -/
def compareGroup (llmResult : Option Recommendation) (name : String)
    (group : List CItem) : ComparisonEntry :=
  let uniq := (group.map (·.supplier)).dedup.length
  let recommendation := llmResult.getD (simplePriceComparison group)
  let prices := group.filterMap
    (fun c => c.item.normalized_price.bind (fun p => if p ≠ 0 then some p else none))
  let stats :=
    match prices with
    | [] => ((0 : Rat), (0 : Rat))
    | p :: ps =>
      let bestPrice := ps.foldl min p
      let worstPrice := ps.foldl max p
      let savings := worstPrice - bestPrice
      let avgQuantity :=
        (group.map (fun c : CItem => c.item.normalized_quantity)).sum / (group.length : Rat)
      (savings, if 0 < avgQuantity then savings * avgQuantity else 0)
  ⟨name, group.length, recommendation, decide (1 < uniq), uniq, stats.1, stats.2,
   group.map (fun c =>
     ⟨c.supplier, c.item.normalized_price, c.item.normalized_unit,
      c.item.normalized_quantity, c.item.completeness_score⟩)⟩

def emptyMessage : String := "Нет цитат для сравнения"

def noMatchesMessage : String := "Нет товаров для анализа (все товары уникальны)"

def successMsgPre : String := "Найдено "

def successMsgSuf : String := " товаров для сравнения"

/-- The three shapes of dict `compare_project_quotes` can return. -/
inductive CompareResult where
  | empty (message : String)
  | noMatches (message : String) (total_unique_items : Nat)
  | success (message : String) (items_compared : Nat) (average_savings_percent : Rat)
      (item_comparisons : List ComparisonEntry)
deriving DecidableEq, Repr

/-- `QuoteComparator.compare_project_quotes`.  `llm` abstracts the per-group
LLM call; the grouping threshold is the call-site constant 40.0.  (The code
after the first `return` statement of the Python function is unreachable and
is not modelled.) -/
def compareProjectQuotes (matcher : Matcher) (llm : String → List CItem → Option Recommendation)
    (quotes : List Quote) : CompareResult :=
  if quotes.isEmpty then .empty emptyMessage
  else
    let grouped := groupSimilarItems matcher true 40 quotes
    if grouped.isEmpty then
      .noMatches noMatchesMessage
        ((quotes.map (fun q => (q.suppliers.map (fun s => s.items.length)).sum)).sum)
    else
      let comparisons := grouped.map (fun g => compareGroup (llm g.1 g.2) g.1 g.2)
      let totalSavings := comparisons.foldl
        (fun acc c =>
          if 0 < c.recommendation.price_difference_percent then
            acc + c.recommendation.price_difference_percent
          else acc)
        0
      let avgSavings := if comparisons.isEmpty then 0 else totalSavings / (comparisons.length : Rat)
      .success (successMsgPre ++ toString comparisons.length ++ successMsgSuf)
        comparisons.length (pyRound 1 avgSavings) comparisons

/-- The `average_savings_percent` field of a result, when present. -/
def resultAverage : CompareResult → Option Rat
  | .success _ _ a _ => some a
  | _ => none

/-- The `item_comparisons` field of a result. -/
def resultComparisons : CompareResult → List ComparisonEntry
  | .success _ _ _ c => c
  | _ => []

/-- Modelled from the spec (§4.5 Aggregate), for comparison with the code:
"average_savings_percent = mean of price_difference_percent across groups
with positive savings (ignore non-positive and sentinel entries in the
denominator)". -/
def specAverageSavings (comps : List ComparisonEntry) : Rat :=
  let pos := (comps.map (fun c => c.recommendation.price_difference_percent)).filter
    (fun x => decide (0 < x))
  if pos.isEmpty then 0 else pos.sum / (pos.length : Rat)

end QuoteComparator

/-! ## `src/ai_engine.py` — lenient JSON extraction -/

namespace AiEngine

/-- The JSON values `json.loads` can produce.  Objects are kept as
association lists in source order (Python collapses duplicate keys, which
never matters below); `NaN`/`Infinity` extensions of `json.loads` are not
modelled (they have no rational value), so the model's parser rejects a few
texts the Python one accepts — every theorem below only ever assumes that a
parse succeeds. -/
inductive Json where
  | null
  | bool (b : Bool)
  | num (v : Rat)
  | str (s : String)
  | arr (elems : List Json)
  | obj (fields : List (String × Json))
deriving Repr

/-- JSON insignificant whitespace. -/
def jsonWs (c : Char) : Bool := c == ' ' || c == '\t' || c == '\n' || c == '\r'

def jskipWs (s : List Char) : List Char := s.dropWhile jsonWs

def hexVal (c : Char) : Option Nat :=
  if '0' ≤ c ∧ c ≤ '9' then some (c.toNat - 48)
  else if 'a' ≤ c ∧ c ≤ 'f' then some (c.toNat - 87)
  else if 'A' ≤ c ∧ c ≤ 'F' then some (c.toNat - 55)
  else none

/-- Body of a JSON string after the opening quote: the decoded characters and
the remaining input after the closing quote. -/
def parseStringBody : List Char → Option (List Char × List Char)
  | [] => none
  | '"' :: rest => some ([], rest)
  | '\\' :: e :: rest =>
    match e with
    | '"' => (parseStringBody rest).map (fun p => ('"' :: p.1, p.2))
    | '\\' => (parseStringBody rest).map (fun p => ('\\' :: p.1, p.2))
    | '/' => (parseStringBody rest).map (fun p => ('/' :: p.1, p.2))
    | 'b' => (parseStringBody rest).map (fun p => (Char.ofNat 8 :: p.1, p.2))
    | 'f' => (parseStringBody rest).map (fun p => (Char.ofNat 12 :: p.1, p.2))
    | 'n' => (parseStringBody rest).map (fun p => ('\n' :: p.1, p.2))
    | 'r' => (parseStringBody rest).map (fun p => ('\r' :: p.1, p.2))
    | 't' => (parseStringBody rest).map (fun p => ('\t' :: p.1, p.2))
    | 'u' =>
      match rest with
      | h1 :: h2 :: h3 :: h4 :: rest2 =>
        match hexVal h1, hexVal h2, hexVal h3, hexVal h4 with
        | some a, some b, some c, some d =>
          (parseStringBody rest2).map
            (fun p => (Char.ofNat (((a * 16 + b) * 16 + c) * 16 + d) :: p.1, p.2))
        | _, _, _, _ => none
      | _ => none
    | _ => none
  | c :: rest => (parseStringBody rest).map (fun p => (c :: p.1, p.2))

def digitsToNat (l : List Char) : Nat := l.foldl (fun a c => a * 10 + (c.toNat - 48)) 0

/-- A JSON number (RFC 8259 grammar), as an exact rational. -/
def parseNumber (s : List Char) : Option (Rat × List Char) := do
  let (neg, s1) := match s with
    | '-' :: r => (true, r)
    | _ => (false, s)
  let intDigits := s1.takeWhile Char.isDigit
  let s2 := s1.dropWhile Char.isDigit
  if intDigits.isEmpty then none
  else if 1 < intDigits.length ∧ intDigits.head? = some '0' then none
  else
    let iv : Rat := (digitsToNat intDigits : Rat)
    let (v1, s3) ← (match s2 with
      | '.' :: r =>
        let fracDigits := r.takeWhile Char.isDigit
        if fracDigits.isEmpty then none
        else some (iv + (digitsToNat fracDigits : Rat) / ((10 : Rat) ^ fracDigits.length),
          r.dropWhile Char.isDigit)
      | _ => some (iv, s2))
    let (v2, s4) ← (match s3 with
      | 'e' :: r | 'E' :: r =>
        let (esign, r1) := match r with
          | '+' :: rr => ((1 : Int), rr)
          | '-' :: rr => ((-1 : Int), rr)
          | _ => ((1 : Int), r)
        let expDigits := r1.takeWhile Char.isDigit
        if expDigits.isEmpty then none
        else some (v1 * (10 : Rat) ^ (esign * (digitsToNat expDigits : Int)),
          r1.dropWhile Char.isDigit)
      | _ => some (v1, s3))
    some (if neg then -v2 else v2, s4)

mutual

/-- One JSON value, fuel-bounded recursive descent. -/
def parseValue : Nat → List Char → Option (Json × List Char)
  | 0, _ => none
  | n + 1, s =>
    match jskipWs s with
    | 'n' :: 'u' :: 'l' :: 'l' :: r => some (.null, r)
    | 't' :: 'r' :: 'u' :: 'e' :: r => some (.bool true, r)
    | 'f' :: 'a' :: 'l' :: 's' :: 'e' :: r => some (.bool false, r)
    | '"' :: r => (parseStringBody r).map (fun p => (.str ⟨p.1⟩, p.2))
    | '[' :: r =>
      (match jskipWs r with
       | ']' :: r2 => some (.arr [], r2)
       | s2 => (parseElements n s2).map (fun p => (.arr p.1, p.2)))
    | '{' :: r =>
      (match jskipWs r with
       | '}' :: r2 => some (.obj [], r2)
       | s2 => (parseMembers n s2).map (fun p => (.obj p.1, p.2)))
    | s1 => (parseNumber s1).map (fun p => (.num p.1, p.2))

/-- Nonempty `,`-separated element list up to the closing `]`. -/
def parseElements : Nat → List Char → Option (List Json × List Char)
  | 0, _ => none
  | n + 1, s => do
    let (v, r) ← parseValue n s
    match jskipWs r with
    | ',' :: r2 => (parseElements n r2).map (fun p => (v :: p.1, p.2))
    | ']' :: r2 => some ([v], r2)
    | _ => none

/-- Nonempty `,`-separated member list up to the closing `}`. -/
def parseMembers : Nat → List Char → Option (List (String × Json) × List Char)
  | 0, _ => none
  | n + 1, s =>
    match jskipWs s with
    | '"' :: r => do
      let (k, r1) ← parseStringBody r
      match jskipWs r1 with
      | ':' :: r2 => do
        let (v, r3) ← parseValue n r2
        match jskipWs r3 with
        | ',' :: r4 => (parseMembers n r4).map (fun p => ((⟨k⟩, v) :: p.1, p.2))
        | '}' :: r4 => some ([(⟨k⟩, v)], r4)
        | _ => none
      | _ => none
    | _ => none

end

/-- `json.loads`: one value, then only whitespace may remain. -/
def jsonLoads (s : List Char) : Option Json :=
  match parseValue (s.length + 1) s with
  | some (v, r) => if (jskipWs r).isEmpty then some v else none
  | none => none

/-- Fuel-bounded worker for `replaceAll` (structural recursion on the fuel so
that the definition evaluates inside the kernel; the fuel never runs out when
it starts at the length of the list). -/
def replaceAllAux (pat : List Char) : Nat → List Char → List Char
  | 0, s => s
  | _ + 1, [] => []
  | n + 1, c :: cs =>
    if pat ≠ [] ∧ pat.isPrefixOf (c :: cs) then replaceAllAux pat n ((c :: cs).drop pat.length)
    else c :: replaceAllAux pat n cs

/-- Python's `str.replace(pat, "")`: delete the left-to-right non-overlapping
occurrences of `pat` (the sources only ever replace by the empty string). -/
def replaceAll (pat s : List Char) : List Char := replaceAllAux pat s.length s

/-- The span matched by the greedy regex `re.search(r'O.*C', text, DOTALL)`
(for bracket characters `O`, `C`): from the first `O` to the last `C` after
it, or no match. -/
def greedySpan (o c : Char) (s : List Char) : Option (List Char) :=
  let s1 := s.dropWhile (fun x => !(x == o))
  if s1.isEmpty then none
  else
    let s2 := (s1.reverse.dropWhile (fun x => !(x == c))).reverse
    if s2.isEmpty then none else some s2

/-- The fence stripping and `strip()` that `extract_json_from_text` performs
before searching:
`text.replace("```json", "").replace("```", "").strip()`. -/
def stripFences (text : List Char) : List Char :=
  pyStripL (replaceAll ("```".data) (replaceAll ("```json".data) text))

/-- `ai_engine.extract_json_from_text`: strip fences, try the greedy `[.*]`
regex, then the greedy `{.*}` regex, then the whole text; any `json.loads`
failure inside the `try` returns `None` (so a failed parse of the array span
does not fall through to the object span). -/
def extractJsonFromText (text : List Char) : Option Json :=
  let t := stripFences text
  match greedySpan '[' ']' t with
  | some m => jsonLoads m
  | none =>
    match greedySpan '{' '}' t with
    | some m => jsonLoads m
    | none => jsonLoads t

/-- Depth scan collecting characters until the bracket depth returns to
zero. -/
def balancedSpanAux : List Char → Int → List Char → Option (List Char)
  | [], _, _ => none
  | ch :: r, depth, acc =>
    let d := if ch == '[' || ch == '{' then depth + 1
             else if ch == ']' || ch == '}' then depth - 1 else depth
    if d = 0 then some (ch :: acc).reverse else balancedSpanAux r d (ch :: acc)

/-- Modelled from the spec (§4.5 / §6), for comparison with the code: strip
markdown code-fence markers, then parse "the first syntactically balanced
`{...}` or `[...]` substring" of the text. -/
def specFirstBalancedExtract (text : List Char) : Option Json :=
  let t := stripFences text
  let s1 := t.dropWhile (fun x => !(x == '[' || x == '{'))
  match balancedSpanAux s1 0 [] with
  | some m => jsonLoads m
  | none => none

end AiEngine

/-! ## Concrete fixtures used by witnesses and counterexamples -/

namespace Fixtures

open UnitNormalizer QuoteComparator

/-- A matcher that reports no fuzzy match (as `rapidfuzz` does whenever every
score is below the cutoff). -/
def matcherNone : Matcher := fun _ _ _ => none

/-- An LLM that always fails (network error or unparseable response), forcing
the deterministic fallback. -/
def llmNone : String → List CItem → Option Recommendation := fun _ _ => none

/-- Two suppliers quoting the same two products: group "aa" has prices
100/200 (50% spread), group "bb" is a tie (0% spread). -/
def quotesTwoGroups : List Quote :=
  [⟨"f", [⟨"A", [⟨"aa", some 100, "u", 1, 0⟩, ⟨"bb", some 50, "u", 1, 0⟩]⟩,
          ⟨"B", [⟨"aa", some 200, "u", 1, 0⟩, ⟨"bb", some 50, "u", 1, 0⟩]⟩]⟩]

/-- One supplier quoting the same product name twice. -/
def quotesSameName : List Quote :=
  [⟨"f", [⟨"A", [⟨"aa", some 1, "u", 1, 0⟩, ⟨"aa", some 2, "u", 1, 0⟩]⟩]⟩]

/-- The spec's worked example: normalized prices [100, 150, 200] from
suppliers A/B/C. -/
def exampleGroupABC : List CItem :=
  [⟨⟨"tile", some 100, "m", 1, 0⟩, "A", "s", "tile"⟩,
   ⟨⟨"tile", some 150, "m", 1, 0⟩, "B", "s", "tile"⟩,
   ⟨⟨"tile", some 200, "m", 1, 0⟩, "C", "s", "tile"⟩]

/-- Two valid prices 3 and 7, whose exact spread (400/7)% is not a multiple
of 0.1. -/
def exampleGroup37 : List CItem :=
  [⟨⟨"t", some 3, "m", 1, 0⟩, "A", "s", "t"⟩,
   ⟨⟨"t", some 7, "m", 1, 0⟩, "B", "s", "t"⟩]

/-- A group with no valid price: one zero price and one missing price. -/
def exampleGroupNoPrice : List CItem :=
  [⟨⟨"x", some 0, "", 0, 0⟩, "A", "s", "x"⟩,
   ⟨⟨"y", none, "", 0, 0⟩, "B", "s", "y"⟩]

end Fixtures

/-!
## Theorems

One theorem per claim of the specification review, preceded by the helper
lemmas they share.  Claim theorems are named `claimCn...`; their witnesses
`claimCn_witness` and counterexamples `claimCn_cex`.
-/

section Helpers

open QuoteComparator

lemma validPrice_pos {c : CItem} (h : validPrice c = true) : 0 < priceKey c := by
  unfold validPrice at h
  cases hc : c.item.normalized_price with
  | none => rw [hc] at h; cases h
  | some p =>
    rw [hc] at h
    have := of_decide_eq_true h
    unfold priceKey
    rw [hc]
    exact this.2

lemma sorted_le_getLast :
    ∀ (l : List CItem) (hl : l ≠ []), l.Sorted priceLe →
      ∀ x ∈ l, priceKey x ≤ priceKey (l.getLast hl)
  | [], hl, _, _, hx => absurd rfl hl
  | [a], _, _, x, hx => by
    simp only [List.mem_singleton] at hx
    subst hx
    exact le_refl _
  | a :: b :: t, _, hs, x, hx => by
    have hgl : (a :: b :: t).getLast (List.cons_ne_nil a (b :: t))
        = (b :: t).getLast (List.cons_ne_nil b t) := List.getLast_cons (List.cons_ne_nil b t)
    rw [hgl]
    rcases List.mem_cons.mp hx with hx | hx
    · subst hx
      exact List.rel_of_sorted_cons hs _ (List.getLast_mem (List.cons_ne_nil b t))
    · exact sorted_le_getLast (b :: t) (List.cons_ne_nil b t) hs.of_cons x hx

end Helpers

section UnitNormalizerClaims

open UnitNormalizer

/-- C10: an item with zero (or defaulted) quantity or an empty unit string is
returned unchanged — the `normalized_*` fields are the original values — for
every possible LLM response, so neither the conversion table nor the external
call influences the result. -/
theorem claimC10_zero_quantity_or_empty_unit_passthrough
    (resp : Option LlmResponse) (it : Item) (h : it.quantity = 0 ∨ it.unit = "") :
    normalizeItem resp it = .ok (passthrough it) := by
  unfold normalizeItem
  rcases h with h | h
  · rw [if_pos (Or.inr h)]
  · rw [if_pos (Or.inl h)]

/-- Witness for C10 at a concrete input whose unit `"–≥"` is a known alias of
the conversion table: with quantity 0 the alias is still left unconverted. -/
theorem claimC10_witness :
    normalizeItem (some ⟨some 5, some "—à—Ç", some 1, some 1⟩) ⟨"n", 0, "–≥", 100⟩
      = .ok (passthrough ⟨"n", 0, "–≥", 100⟩)
    ∧ UNIT_CONVERSIONS.lookup (normalizeUnitString "–≥") = some ("–∫–≥", 1 / 1000) :=
  ⟨claimC10_zero_quantity_or_empty_unit_passthrough _ _ (Or.inl rfl), by decide⟩

/-- C1 counterexample: the claim quantifies over every item whose
canonicalized unit is a known alias, but for the alias `"–≥"` (canonical unit
`"–∫–≥"`, factor 1/1000) and quantity 0 the zero-quantity guard returns first:
`normalized_unit` stays the alias, not the canonical unit. -/
theorem claimC1_cex :
    UNIT_CONVERSIONS.lookup (normalizeUnitString "–≥") = some ("–∫–≥", 1 / 1000)
    ∧ normalizeItem none ⟨"x", 0, "–≥", 100⟩ = .ok ⟨⟨"x", 0, "–≥", 100⟩, 0, "–≥", 100⟩
    ∧ ("–≥" : String) ≠ "–∫–≥" :=
  ⟨by decide, rfl, by decide⟩

/-- C1 (amended: items with nonzero quantity): when the canonicalized unit is
a known alias `(target, factor)` and the quantity is nonzero, the item gets
`normalized_quantity = quantity·factor` rounded to 4 decimals,
`normalized_unit = target`, and `normalized_price =
price_per_unit·quantity / (quantity·factor)` rounded to 2 decimals whenever
`quantity·factor > 0` (and `price_per_unit` itself, rounded, otherwise); the
pre-rounding price and quantity leave `price × quantity` invariant. -/
theorem claimC1_known_alias_conversion (it : Item) (target : String) (factor : Rat)
    (resp : Option LlmResponse) (hq : it.quantity ≠ 0)
    (hl : UNIT_CONVERSIONS.lookup (normalizeUnitString it.unit) = some (target, factor)) :
    normalizeItem resp it =
      .ok ⟨it, pyRound 4 (it.quantity * factor), target,
        pyRound 2 (if 0 < it.quantity * factor then
          it.price_per_unit * it.quantity / (it.quantity * factor)
          else it.price_per_unit)⟩
    ∧ (0 < it.quantity * factor →
      it.price_per_unit * it.quantity / (it.quantity * factor) * (it.quantity * factor)
        = it.price_per_unit * it.quantity) := by
  have hu : it.unit ≠ "" := by
    intro h
    rw [h] at hl
    have h0 : UNIT_CONVERSIONS.lookup (normalizeUnitString "") = none := by decide
    rw [h0] at hl
    cases hl
  constructor
  · unfold normalizeItem
    rw [if_neg (by push_neg; exact ⟨hu, hq⟩)]
    unfold simpleConvert
    rw [hl]
  · intro h
    exact div_mul_cancel₀ _ (ne_of_gt h)

/-- Witness for C1 (amended) at quantity 2 of unit `"–≥"` and unit price
100. -/
theorem claimC1_witness :
    normalizeItem none ⟨"x", 2, "–≥", 100⟩ =
      .ok ⟨⟨"x", 2, "–≥", 100⟩, pyRound 4 (2 * (1 / 1000)), "–∫–≥",
        pyRound 2 (if 0 < 2 * ((1 : Rat) / 1000) then 100 * 2 / (2 * (1 / 1000)) else 100)⟩
    ∧ (0 < 2 * ((1 : Rat) / 1000) →
      100 * 2 / (2 * ((1 : Rat) / 1000)) * (2 * (1 / 1000)) = 100 * 2) :=
  claimC1_known_alias_conversion ⟨"x", 2, "–≥", 100⟩ "–∫–≥" (1 / 1000) none
    (by norm_num) (by decide)

/-- C8 counterexample: the claim quantifies over every item whose
canonicalized unit is not in the table but contains a marker token; at
quantity 0 the guard returns first, so no delegation happens and a confident,
well-formed response is ignored (the unit stays `"–º–µ—à–æ–∫ 50"` instead of
the response's `"—à—Ç"`). -/
theorem claimC8_cex :
    UNIT_CONVERSIONS.lookup (normalizeUnitString "–º–µ—à–æ–∫ 50") = none
    ∧ complex_units.any (fun cu => strContains cu (normalizeUnitString "–º–µ—à–æ–∫ 50")) = true
    ∧ normalizeItem (some ⟨some 500, some "—à—Ç", some (1 / 5), some (9 / 10)⟩)
        ⟨"x", 0, "–º–µ—à–æ–∫ 50", 100⟩
        = .ok ⟨⟨"x", 0, "–º–µ—à–æ–∫ 50", 100⟩, 0, "–º–µ—à–æ–∫ 50", 100⟩
    ∧ ("–º–µ—à–æ–∫ 50" : String) ≠ "—à—Ç" :=
  ⟨by decide, by decide, rfl, by decide⟩

/-- C8 (amended: items with nonzero quantity): when the canonicalized unit is
not in the table but contains a marker token, the result is delegated to the
external response: a response carrying the three fields is accepted (with
quantity rounded to 4 decimals and price to 2) exactly when its confidence
exceeds 0.3, and a rejected or absent response degrades to passthrough. -/
theorem claimC8_marker_delegation (it : Item) (hq : it.quantity ≠ 0)
    (hl : UNIT_CONVERSIONS.lookup (normalizeUnitString it.unit) = none)
    (hm : complex_units.any (fun cu => strContains cu (normalizeUnitString it.unit)) = true) :
    (∀ (nq np c : Rat) (nu : String), 3 / 10 < c →
      normalizeItem (some ⟨some nq, some nu, some np, some c⟩) it
        = .ok ⟨it, pyRound 4 nq, nu, pyRound 2 np⟩)
    ∧ (∀ (nq np c : Rat) (nu : String), ¬ 3 / 10 < c →
      normalizeItem (some ⟨some nq, some nu, some np, some c⟩) it = .ok (passthrough it))
    ∧ normalizeItem none it = .ok (passthrough it) := by
  have hu : it.unit ≠ "" := by
    intro h
    rw [h] at hm
    exact absurd hm (by decide)
  have hguard : ¬ (it.unit = "" ∨ it.quantity = 0) := by push_neg; exact ⟨hu, hq⟩
  refine ⟨?_, ?_, ?_⟩
  · intro nq np c nu hc
    unfold normalizeItem
    rw [if_neg hguard]
    unfold simpleConvert
    rw [hl]
    simp only [hm, if_true]
    unfold llmConvert
    simp only [Option.getD_some]
    rw [if_pos hc]
  · intro nq np c nu hc
    unfold normalizeItem
    rw [if_neg hguard]
    unfold simpleConvert
    rw [hl]
    simp only [hm, if_true]
    unfold llmConvert
    simp only [Option.getD_some]
    rw [if_neg hc]
  · unfold normalizeItem
    rw [if_neg hguard]
    unfold simpleConvert
    rw [hl]
    simp only [hm, if_true]
    rfl

/-- Witness for C8 (amended) at quantity 5 of unit `"–º–µ—à–æ–∫ 50"` with an
accepted response (500 `"—à—Ç"` at price 1/5, confidence 0.9). -/
theorem claimC8_witness :
    normalizeItem (some ⟨some 500, some "—à—Ç", some (1 / 5), some (9 / 10)⟩)
      ⟨"x", 5, "–º–µ—à–æ–∫ 50", 100⟩
      = .ok ⟨⟨"x", 5, "–º–µ—à–æ–∫ 50", 100⟩, pyRound 4 500, "—à—Ç", pyRound 2 (1 / 5)⟩ :=
  (claimC8_marker_delegation ⟨"x", 5, "–º–µ—à–æ–∫ 50", 100⟩ (by norm_num) (by decide)
    (by decide)).1 500 (1 / 5) (9 / 10) "—à—Ç" (by norm_num)

end UnitNormalizerClaims

section CategoryClaims

open CategoryIntelligence

/-- C6 counterexample: the stored score is rounded to 2 decimals, so for the
9-field category "строительные материалы" an item with exactly one important
field scores 0.11, not the exact ratio 1/9. -/
theorem claimC6_cex :
    (suggestImportantFields "строительные материалы").length = 9
    ∧ (validateCategorySpecs ["size"] "строительные материалы").completeness_score = 11 / 100
    ∧ (11 / 100 : Rat) ≠ 1 / 9 := by
  refine ⟨by decide, by decide, by norm_num⟩

/-- C6 (amended: the ratio is rounded to 2 decimals): the completeness score
is `|important ∩ specs| / |important|` rounded to 2 decimals, it is exactly
1.0 whenever the important-field list is empty, `missing_specs` is exactly
the set of important fields absent from the item's specs, and an item with
exactly half of the 8 important fields of "инструменты" scores exactly
0.5. -/
theorem claimC6_completeness_score :
    (∀ (specKeys : List String) (category : String),
      suggestImportantFields category = [] →
      validateCategorySpecs specKeys category = ⟨[], 1, []⟩)
    ∧ (∀ (specKeys : List String) (category : String),
      suggestImportantFields category ≠ [] →
      (validateCategorySpecs specKeys category).completeness_score =
        pyRound 2
          ((((suggestImportantFields category).dedup.filter
              (fun f => specKeys.contains f)).length : Rat) /
            ((suggestImportantFields category).length : Rat))
      ∧ ∀ f, f ∈ (validateCategorySpecs specKeys category).missing_specs ↔
          f ∈ suggestImportantFields category ∧ f ∉ specKeys)
    ∧ (validateCategorySpecs ["brand", "model", "power", "voltage"]
        "инструменты").completeness_score = 1 / 2 := by
  refine ⟨?_, ?_, by decide⟩
  · intro specKeys category h
    simp [validateCategorySpecs, h]
  · intro specKeys category h
    have hne : (suggestImportantFields category).isEmpty = false := by
      simp [List.isEmpty_iff, h]
    constructor
    · simp [validateCategorySpecs, hne]
    · intro f
      simp [validateCategorySpecs, hne, List.mem_filter, List.mem_dedup]

/-- Witness for C6 (amended) at a category absent from the table (empty
important-field list). -/
theorem claimC6_witness :
    validateCategorySpecs ["anything"] "общее" = ⟨[], 1, []⟩ :=
  claimC6_completeness_score.1 ["anything"] "общее" (by decide)

end CategoryClaims

section ComparatorClaims

open QuoteComparator Fixtures

/-- C4: a group in which no member has a valid positive normalized price
produces the well-formed "insufficient data" sentinel — zero recommended
price, empty alternatives — and (being a total function of the embedding)
cannot raise. -/
theorem claimC4_sentinel (group : List CItem) (h : ∀ c ∈ group, validPrice c = false) :
    simplePriceComparison group = sentinelRecommendation
    ∧ sentinelRecommendation.recommended_price = 0
    ∧ sentinelRecommendation.alternatives = [] := by
  have hf : group.filter validPrice = [] :=
    List.filter_eq_nil_iff.mpr (fun a ha => by simp [h a ha])
  refine ⟨?_, rfl, rfl⟩
  unfold simplePriceComparison
  rw [hf]
  rfl

/-- Witness for C4: a group with one zero price and one missing price. -/
theorem claimC4_witness :
    simplePriceComparison exampleGroupNoPrice = sentinelRecommendation
    ∧ sentinelRecommendation.recommended_price = 0
    ∧ sentinelRecommendation.alternatives = [] :=
  claimC4_sentinel exampleGroupNoPrice (by decide)

/-- C5: every group in the mapping returned by `_group_similar_items` has at
least 2 members, for every input, matcher behaviour, fuzzy flag and
threshold. -/
theorem claimC5_groups_have_two_members (matcher : Matcher) (useFuzzy : Bool)
    (threshold : Rat) (quotes : List Quote) :
    ∀ g ∈ groupSimilarItems matcher useFuzzy threshold quotes, 2 ≤ g.2.length := by
  intro g hg
  unfold groupSimilarItems at hg
  have := List.of_mem_filter hg
  have h2 := of_decide_eq_true this
  omega

/-- Witness for C5: one supplier quoting "aa" twice yields the one surfaced
group with its 2 members. -/
theorem claimC5_witness :
    2 ≤ (("aa", [(⟨⟨"aa", some 1, "u", 1, 0⟩, "A", "f", "aa"⟩ : CItem),
        ⟨⟨"aa", some 2, "u", 1, 0⟩, "A", "f", "aa"⟩]) : String × List CItem).2.length :=
  claimC5_groups_have_two_members matcherNone true 40 quotesSameName
    ("aa", [⟨⟨"aa", some 1, "u", 1, 0⟩, "A", "f", "aa"⟩,
      ⟨⟨"aa", some 2, "u", 1, 0⟩, "A", "f", "aa"⟩]) (by decide)

/-- Unfolding of `simplePriceComparison` once the sorted valid list is known
to be the nonempty `b :: t`. -/
lemma simplePriceComparison_eq_of_sort (group : List CItem) (b : CItem) (t : List CItem)
    (hsort : (group.filter validPrice).insertionSort priceLe = b :: t) :
    simplePriceComparison group =
      ⟨b.supplier, priceKey b, b.item.normalized_unit,
       pyRound 1 (if 0 < priceKey ((b :: t).getLast (List.cons_ne_nil b t)) then
         (priceKey ((b :: t).getLast (List.cons_ne_nil b t)) - priceKey b)
           / priceKey ((b :: t).getLast (List.cons_ne_nil b t)) * 100 else 0),
       reasonPre ++ toString (group.filter validPrice).length ++ reasonSuf,
       (t.take 2).map (·.supplier)⟩ := by
  simp only [simplePriceComparison, hsort]

/-- C3 (amended: the percentage is rounded to 1 decimal): whenever the sorted
valid sublist is nonempty, the fallback recommends the supplier of its head —
a member of minimum positive normalized price — sets the recommended price to
that minimum, computes `price_difference_percent = (max − min)/max · 100` over
the valid members rounded to 1 decimal, and lists the next two members of the
sorted order as alternatives; on prices [100, 150, 200] from A/B/C it returns
A, 50.0 and [B, C] exactly. -/
theorem claimC3_fallback :
    (∀ (group : List CItem) (b : CItem) (t : List CItem),
      (group.filter validPrice).insertionSort priceLe = b :: t →
      b ∈ group.filter validPrice
      ∧ (b :: t).getLast (List.cons_ne_nil b t) ∈ group.filter validPrice
      ∧ (simplePriceComparison group).recommended_supplier = b.supplier
      ∧ (simplePriceComparison group).recommended_price = priceKey b
      ∧ (∀ m ∈ group.filter validPrice,
          priceKey b ≤ priceKey m
          ∧ priceKey m ≤ priceKey ((b :: t).getLast (List.cons_ne_nil b t)))
      ∧ 0 < priceKey ((b :: t).getLast (List.cons_ne_nil b t))
      ∧ (simplePriceComparison group).price_difference_percent =
          pyRound 1 ((priceKey ((b :: t).getLast (List.cons_ne_nil b t)) - priceKey b)
            / priceKey ((b :: t).getLast (List.cons_ne_nil b t)) * 100)
      ∧ (simplePriceComparison group).alternatives = (t.take 2).map (·.supplier))
    ∧ simplePriceComparison Fixtures.exampleGroupABC
        = ⟨"A", 100, "m", 50, reasonPre ++ "3" ++ reasonSuf, ["B", "C"]⟩ := by
  constructor
  · intro group b t hsort
    have hperm : (b :: t).Perm (group.filter validPrice) := by
      rw [← hsort]
      exact List.perm_insertionSort priceLe (group.filter validPrice)
    have hsorted : (b :: t).Sorted priceLe := by
      rw [← hsort]
      exact List.sorted_insertionSort priceLe (group.filter validPrice)
    have hb : b ∈ group.filter validPrice := hperm.subset (List.mem_cons_self b t)
    have hlast_mem : (b :: t).getLast (List.cons_ne_nil b t) ∈ group.filter validPrice :=
      hperm.subset (List.getLast_mem (List.cons_ne_nil b t))
    have hlast_pos : 0 < priceKey ((b :: t).getLast (List.cons_ne_nil b t)) :=
      validPrice_pos (List.of_mem_filter hlast_mem)
    have hmin : ∀ m ∈ group.filter validPrice, priceKey b ≤ priceKey m := by
      intro m hm
      rcases List.mem_cons.mp (hperm.mem_iff.mpr hm) with h | h
      · rw [h]
      · exact List.rel_of_sorted_cons hsorted m h
    have hmax : ∀ m ∈ group.filter validPrice,
        priceKey m ≤ priceKey ((b :: t).getLast (List.cons_ne_nil b t)) := fun m hm =>
      sorted_le_getLast (b :: t) (List.cons_ne_nil b t) hsorted m (hperm.mem_iff.mpr hm)
    rw [simplePriceComparison_eq_of_sort group b t hsort]
    refine ⟨hb, hlast_mem, rfl, rfl, fun m hm => ⟨hmin m hm, hmax m hm⟩, hlast_pos, ?_, rfl⟩
    simp only [if_pos hlast_pos]
  · decide

/-- Witness for C3 at the spec's worked example (prices 100/150/200 from
A/B/C). -/
theorem claimC3_witness :
    (simplePriceComparison Fixtures.exampleGroupABC).recommended_supplier = "A"
    ∧ (simplePriceComparison Fixtures.exampleGroupABC).recommended_price = 100
    ∧ (simplePriceComparison Fixtures.exampleGroupABC).alternatives = ["B", "C"] := by
  have h := claimC3_fallback.1 Fixtures.exampleGroupABC
    ⟨⟨"tile", some 100, "m", 1, 0⟩, "A", "s", "tile"⟩
    [⟨⟨"tile", some 150, "m", 1, 0⟩, "B", "s", "tile"⟩,
     ⟨⟨"tile", some 200, "m", 1, 0⟩, "C", "s", "tile"⟩] (by decide)
  exact ⟨h.2.2.1, h.2.2.2.1, h.2.2.2.2.2.2.2⟩

/-- C3 counterexample: the stored percentage is rounded to 1 decimal, so for
prices [3, 7] it is 57.1 and not the exact `(max − min)/max × 100 = 400/7`
the claim states. -/
theorem claimC3_cex :
    (simplePriceComparison Fixtures.exampleGroup37).price_difference_percent = 571 / 10
    ∧ (571 / 10 : Rat) ≠ (7 - 3) / 7 * 100 :=
  ⟨by decide, by norm_num⟩

/-- The accumulator loop `total_savings += pdp if pdp > 0` is the sum of the
positive values. -/
lemma foldl_pos_sum {α : Type} (f : α → Rat) (l : List α) :
    ∀ acc : Rat,
      l.foldl (fun a c => if 0 < f c then a + f c else a) acc
        = acc + ((l.map f).filter (fun x => decide (0 < x))).sum := by
  induction l with
  | nil => intro acc; simp
  | cons c cs ih =>
    intro acc
    simp only [List.foldl_cons, List.map_cons, List.filter_cons]
    by_cases h : 0 < f c
    · rw [if_pos h, ih]
      simp [h, add_assoc]
    · rw [if_neg h, ih]
      simp [h]

/-- C2 (amended: the denominator is the number of all compared groups): the
project aggregate's `average_savings_percent` is the sum of the positive
`price_difference_percent` values divided by the number of ALL compared
groups (rounded to 1 decimal) — non-positive and sentinel entries are left
out of the numerator but still counted in the denominator — and
`items_compared` is the number of compared groups. -/
theorem claimC2_average_savings (matcher : Matcher)
    (llm : String → List CItem → Option Recommendation) (quotes : List Quote)
    (hq : quotes ≠ []) (hg : groupSimilarItems matcher true 40 quotes ≠ []) :
    compareProjectQuotes matcher llm quotes =
      .success
        (successMsgPre
          ++ toString ((groupSimilarItems matcher true 40 quotes).map
              (fun g => compareGroup (llm g.1 g.2) g.1 g.2)).length
          ++ successMsgSuf)
        ((groupSimilarItems matcher true 40 quotes).map
          (fun g => compareGroup (llm g.1 g.2) g.1 g.2)).length
        (pyRound 1
          (((((groupSimilarItems matcher true 40 quotes).map
                (fun g => compareGroup (llm g.1 g.2) g.1 g.2)).map
              (fun c => c.recommendation.price_difference_percent)).filter
              (fun x => decide (0 < x))).sum
            / (((groupSimilarItems matcher true 40 quotes).map
                (fun g => compareGroup (llm g.1 g.2) g.1 g.2)).length : Rat)))
        ((groupSimilarItems matcher true 40 quotes).map
          (fun g => compareGroup (llm g.1 g.2) g.1 g.2)) := by
  have hq' : quotes.isEmpty = false := by simp [List.isEmpty_iff, hq]
  have hg' : (groupSimilarItems matcher true 40 quotes).isEmpty = false := by
    simp [List.isEmpty_iff, hg]
  have hcomp : ((groupSimilarItems matcher true 40 quotes).map
      (fun g => compareGroup (llm g.1 g.2) g.1 g.2)).isEmpty = false := by
    simp [List.isEmpty_iff, hg]
  simp only [compareProjectQuotes, hq', hg', hcomp, Bool.false_eq_true, if_false,
    foldl_pos_sum, zero_add]

/-- Witness for C2 at two concrete groups with spreads 50% and 0%. -/
theorem claimC2_witness :
    compareProjectQuotes Fixtures.matcherNone Fixtures.llmNone Fixtures.quotesTwoGroups =
      .success
        (successMsgPre
          ++ toString ((groupSimilarItems Fixtures.matcherNone true 40 Fixtures.quotesTwoGroups).map
              (fun g => compareGroup (Fixtures.llmNone g.1 g.2) g.1 g.2)).length
          ++ successMsgSuf)
        ((groupSimilarItems Fixtures.matcherNone true 40 Fixtures.quotesTwoGroups).map
          (fun g => compareGroup (Fixtures.llmNone g.1 g.2) g.1 g.2)).length
        (pyRound 1
          (((((groupSimilarItems Fixtures.matcherNone true 40 Fixtures.quotesTwoGroups).map
                (fun g => compareGroup (Fixtures.llmNone g.1 g.2) g.1 g.2)).map
              (fun c => c.recommendation.price_difference_percent)).filter
              (fun x => decide (0 < x))).sum
            / (((groupSimilarItems Fixtures.matcherNone true 40 Fixtures.quotesTwoGroups).map
                (fun g => compareGroup (Fixtures.llmNone g.1 g.2) g.1 g.2)).length : Rat)))
        ((groupSimilarItems Fixtures.matcherNone true 40 Fixtures.quotesTwoGroups).map
          (fun g => compareGroup (Fixtures.llmNone g.1 g.2) g.1 g.2)) :=
  claimC2_average_savings Fixtures.matcherNone Fixtures.llmNone Fixtures.quotesTwoGroups
    (by decide) (by decide)

/-- C2 counterexample: with per-group spreads [50%, 0%], the code stores
`round(50 / 2, 1) = 25` while the claimed mean over the positive entries
alone is 50. -/
theorem claimC2_cex :
    resultAverage (compareProjectQuotes Fixtures.matcherNone Fixtures.llmNone
        Fixtures.quotesTwoGroups) = some 25
    ∧ ((resultComparisons (compareProjectQuotes Fixtures.matcherNone Fixtures.llmNone
        Fixtures.quotesTwoGroups)).map
        (fun c => c.recommendation.price_difference_percent)) = [50, 0]
    ∧ specAverageSavings (resultComparisons (compareProjectQuotes Fixtures.matcherNone
        Fixtures.llmNone Fixtures.quotesTwoGroups)) = 50
    ∧ (25 : Rat) ≠ 50 :=
  ⟨by decide, by decide, by decide, by norm_num⟩

end ComparatorClaims

section ExtractionClaims

open AiEngine

lemma dropWhile_append_cons (p : Char → Bool) (a : List Char) (x : Char) (r : List Char)
    (hx : p x = false) : (a ++ x :: r).dropWhile p = a.dropWhile p ++ x :: r := by
  induction a with
  | nil => simp [List.dropWhile_cons, hx]
  | cons c cs ih =>
    by_cases hc : p c
    · simp only [List.cons_append, List.dropWhile_cons, hc, if_true, ih]
    · simp only [List.cons_append, List.dropWhile_cons, hc, Bool.false_eq_true, if_false]

lemma head?_eq_cons {l : List Char} {c : Char} (h : l.head? = some c) :
    ∃ t, l = c :: t := by
  cases l with
  | nil => cases h
  | cons x t =>
    refine ⟨t, ?_⟩
    injection h with h
    rw [h]

lemma getLast?_rev_cons {l : List Char} {c : Char} (h : l.getLast? = some c) :
    ∃ w, l.reverse = c :: w := by
  apply head?_eq_cons
  rw [List.head?_reverse]
  exact h

lemma replaceAllAux_of_head_notMem (pat : List Char) (hc : Char) (hh : pat.head? = some hc) :
    ∀ (n : Nat) (s : List Char), hc ∉ s → replaceAllAux pat n s = s := by
  intro n
  induction n with
  | zero => intro s _; rfl
  | succ n ih =>
    intro s hs
    cases s with
    | nil => rfl
    | cons c cs =>
      obtain ⟨pt, hpt⟩ := head?_eq_cons hh
      have hne : hc ≠ c := fun h => hs (h ▸ List.mem_cons_self c cs)
      have hpre : pat.isPrefixOf (c :: cs) = false := by
        rw [hpt]
        simp [List.isPrefixOf, hne]
      simp only [replaceAllAux, hpre, Bool.false_eq_true, and_false, if_false]
      exact congrArg (c :: ·) (ih cs (fun h => hs (List.mem_cons_of_mem c h)))

lemma replaceAll_of_head_notMem (pat : List Char) (hc : Char) (hh : pat.head? = some hc)
    (s : List Char) (hs : hc ∉ s) : replaceAll pat s = s :=
  replaceAllAux_of_head_notMem pat hc hh s.length s hs

/-- Without a backtick in the text, the fence replacements do nothing. -/
lemma stripFences_of_no_backtick (t : List Char) (h : '`' ∉ t) :
    stripFences t = pyStripL t := by
  unfold stripFences
  rw [replaceAll_of_head_notMem ("```json".data) '`' (by decide) t h,
    replaceAll_of_head_notMem ("```".data) '`' (by decide) t h]

lemma trimRight_append (u b : List Char) (x : Char) (hu : u.getLast? = some x)
    (hx : isPySpace x = false) : trimRight (u ++ b) = u ++ trimRight b := by
  obtain ⟨w, hw⟩ := getLast?_rev_cons hu
  calc trimRight (u ++ b)
      = ((b.reverse ++ u.reverse).dropWhile isPySpace).reverse := by
        unfold trimRight
        rw [List.reverse_append]
    _ = ((b.reverse ++ x :: w).dropWhile isPySpace).reverse := by rw [hw]
    _ = (b.reverse.dropWhile isPySpace ++ x :: w).reverse := by
        rw [dropWhile_append_cons _ _ _ _ hx]
    _ = (x :: w).reverse ++ (b.reverse.dropWhile isPySpace).reverse := by
        rw [List.reverse_append]
    _ = u ++ trimRight b := by rw [← hw, List.reverse_reverse]; rfl

/-- `strip()` of prose-JSON-prose only trims the outer prose when the JSON
starts and ends with non-whitespace characters. -/
lemma pyStripL_decomp (a j b : List Char) (c1 c2 : Char)
    (hj1 : j.head? = some c1) (hc1 : isPySpace c1 = false)
    (hj2 : j.getLast? = some c2) (hc2 : isPySpace c2 = false) :
    pyStripL (a ++ j ++ b) = trimLeft a ++ j ++ trimRight b := by
  obtain ⟨jt, hjt⟩ := head?_eq_cons hj1
  have hjne : j ≠ [] := by rw [hjt]; exact List.cons_ne_nil _ _
  have h1 : trimLeft (a ++ j ++ b) = trimLeft a ++ j ++ b := by
    rw [List.append_assoc, hjt, List.cons_append]
    unfold trimLeft
    rw [dropWhile_append_cons _ _ _ _ hc1]
    rw [← List.cons_append, ← List.append_assoc]
  have hgl : (trimLeft a ++ j).getLast? = some c2 := by
    rw [List.getLast?_append, hj2]
    rfl
  unfold pyStripL
  rw [h1, List.append_assoc, ← List.append_assoc (trimLeft a) j b,
    trimRight_append _ b c2 hgl hc2]

lemma trimRight_subset (b : List Char) : trimRight b ⊆ b := by
  intro ch hch
  unfold trimRight at hch
  exact List.mem_reverse.mp (List.dropWhile_subset _ (List.mem_reverse.mp hch))

lemma dropWhile_ne_eq_nil (o : Char) (s : List Char) (h : ∀ ch ∈ s, ch ≠ o) :
    s.dropWhile (fun x => !(x == o)) = [] :=
  List.dropWhile_eq_nil_iff.mpr (by
    intro x hx
    simp [h x hx])

/-- The greedy regex span of prose-JSON-prose is exactly the JSON text, when
the leading prose holds no opening bracket and the trailing prose no closing
bracket. -/
lemma greedySpan_decomp (o c : Char) (a j b : List Char)
    (ha : ∀ ch ∈ a, ch ≠ o) (hb : ∀ ch ∈ b, ch ≠ c)
    (hjh : j.head? = some o) (hjl : j.getLast? = some c) :
    greedySpan o c (a ++ j ++ b) = some j := by
  obtain ⟨jt, hjt⟩ := head?_eq_cons hjh
  obtain ⟨w, hw⟩ := getLast?_rev_cons hjl
  have hdrop1 : (a ++ j ++ b).dropWhile (fun x => !(x == o)) = j ++ b := by
    rw [List.append_assoc, hjt, List.cons_append,
      dropWhile_append_cons _ _ _ _ (by simp), dropWhile_ne_eq_nil o a ha]
    rw [← List.cons_append, List.nil_append]
  have hdrop2 : ((j ++ b).reverse.dropWhile (fun x => !(x == c))).reverse = j := by
    rw [List.reverse_append, hw,
      dropWhile_append_cons _ _ _ _ (by simp),
      dropWhile_ne_eq_nil c b.reverse (fun ch hch => hb ch (List.mem_reverse.mp hch))]
    rw [List.nil_append, ← hw, List.reverse_reverse]
  have hne1 : (j ++ b).isEmpty = false := by
    rw [hjt, List.cons_append]
    rfl
  have hne2 : j.isEmpty = false := by
    rw [hjt]
    rfl
  simp only [greedySpan, hdrop1, hdrop2, hne1, hne2, Bool.false_eq_true, if_false]

/-- Without any opening bracket the greedy regex does not match. -/
lemma greedySpan_none (o c : Char) (s : List Char) (h : ∀ ch ∈ s, ch ≠ o) :
    greedySpan o c s = none := by
  simp only [greedySpan, dropWhile_ne_eq_nil o s h, List.isEmpty_nil, if_true]

/-- C9 (amended: the code takes the greedy span from the first `[` to the
last `]` — preferring an array span, then a brace span, then the whole text —
rather than the first balanced substring): leading and trailing prose around
one JSON value is tolerated whenever the prose contains no bracket of the
matched kind and no backtick, and the parsed value is returned. -/
theorem claimC9_greedy_extraction :
    (∀ (a j b : List Char) (v : Json),
      (∀ ch ∈ a, ch ≠ '[' ∧ ch ≠ ']' ∧ ch ≠ '`') →
      (∀ ch ∈ b, ch ≠ '[' ∧ ch ≠ ']' ∧ ch ≠ '`') →
      j.head? = some '[' → j.getLast? = some ']' → '`' ∉ j →
      jsonLoads j = some v →
      extractJsonFromText (a ++ j ++ b) = some v)
    ∧ (∀ (a j b : List Char) (v : Json),
      (∀ ch ∈ a, ch ≠ '[' ∧ ch ≠ ']' ∧ ch ≠ '{' ∧ ch ≠ '}' ∧ ch ≠ '`') →
      (∀ ch ∈ b, ch ≠ '[' ∧ ch ≠ ']' ∧ ch ≠ '{' ∧ ch ≠ '}' ∧ ch ≠ '`') →
      j.head? = some '{' → j.getLast? = some '}' →
      (∀ ch ∈ j, ch ≠ '[' ∧ ch ≠ ']' ∧ ch ≠ '`') →
      jsonLoads j = some v →
      extractJsonFromText (a ++ j ++ b) = some v) := by
  constructor
  · intro a j b v ha hb hjh hjl hjt hparse
    have hnb : '`' ∉ a ++ j ++ b := by
      intro hmem
      rcases List.mem_append.mp hmem with hmem | hmem
      · rcases List.mem_append.mp hmem with hmem | hmem
        · exact (ha _ hmem).2.2 rfl
        · exact hjt hmem
      · exact (hb _ hmem).2.2 rfl
    have h2 : pyStripL (a ++ j ++ b) = trimLeft a ++ j ++ trimRight b :=
      pyStripL_decomp a j b '[' ']' hjh (by decide) hjl (by decide)
    have hspan : greedySpan '[' ']' (trimLeft a ++ j ++ trimRight b) = some j :=
      greedySpan_decomp '[' ']' (trimLeft a) j (trimRight b)
        (fun ch hch => (ha ch (List.dropWhile_subset _ hch)).1)
        (fun ch hch => (hb ch (trimRight_subset b hch)).2.1)
        hjh hjl
    simp only [extractJsonFromText, stripFences_of_no_backtick _ hnb, h2, hspan, hparse]
  · intro a j b v ha hb hjh hjl hj hparse
    have hnb : '`' ∉ a ++ j ++ b := by
      intro hmem
      rcases List.mem_append.mp hmem with hmem | hmem
      · rcases List.mem_append.mp hmem with hmem | hmem
        · exact (ha _ hmem).2.2.2.2 rfl
        · exact (hj _ hmem).2.2 rfl
      · exact (hb _ hmem).2.2.2.2 rfl
    have h2 : pyStripL (a ++ j ++ b) = trimLeft a ++ j ++ trimRight b :=
      pyStripL_decomp a j b '{' '}' hjh (by decide) hjl (by decide)
    have hnone : greedySpan '[' ']' (trimLeft a ++ j ++ trimRight b) = none := by
      apply greedySpan_none
      intro ch hch
      rcases List.mem_append.mp hch with hch | hch
      · rcases List.mem_append.mp hch with hch | hch
        · exact (ha ch (List.dropWhile_subset _ hch)).1
        · exact (hj ch hch).1
      · exact (hb ch (trimRight_subset b hch)).1
    have hspan : greedySpan '{' '}' (trimLeft a ++ j ++ trimRight b) = some j :=
      greedySpan_decomp '{' '}' (trimLeft a) j (trimRight b)
        (fun ch hch => (ha ch (List.dropWhile_subset _ hch)).2.2.1)
        (fun ch hch => (hb ch (trimRight_subset b hch)).2.2.2.1)
        hjh hjl
    simp only [extractJsonFromText, stripFences_of_no_backtick _ hnb, h2, hnone, hspan, hparse]

/-- Witness for C9 (amended): prose around `[1, 2]` is tolerated and the
array is parsed. -/
theorem claimC9_witness :
    extractJsonFromText ("Result: ".data ++ "[1, 2]".data ++ " ok.".data)
      = some (Json.arr [Json.num 1, Json.num 2]) :=
  claimC9_greedy_extraction.1 "Result: ".data "[1, 2]".data " ok.".data
    (Json.arr [Json.num 1, Json.num 2])
    (by decide) (by decide) (by decide) (by decide) (by decide) rfl

/-- C9 counterexample: on `"x [1] y [2]"` the greedy regex spans from the
first `[` to the last `]`, the parse of `"[1] y [2]"` fails and the code
falls back to `None`, while the first syntactically balanced substring is
`"[1]"` and parses to `[1]` — so the extraction does not parse the first
balanced substring as claimed. -/
theorem claimC9_cex :
    extractJsonFromText ("x [1] y [2]".data) = none
    ∧ specFirstBalancedExtract ("x [1] y [2]".data) = some (Json.arr [Json.num 1]) :=
  ⟨rfl, rfl⟩

end ExtractionClaims
